import Mathlib

/-!
Shallow embedding of the kira CLI work-item subsystem: ID allocation,
item creation (`createWorkItem` in `internal/commands/new.go`), filename
construction (`kebabCase`), and the linting pass.  Pure Go functions are
translated to Lean functions; the filesystem, clock and interactive
terminal are explicit parameters; fallible steps return `Except`.
-/

namespace Kira

/-! ## Decimal digits and zero padding -/

/-- The decimal digit character for `n < 10` (ASCII `'0'` + n). -/
def digitChar (n : Nat) : Char := Char.ofNat (48 + n)

/-- Decimal representation of a natural number, most significant digit
first (the digits of Go's `%d` formatting). -/
def natDigits (n : Nat) : List Char :=
  if _h : n < 10 then [digitChar n]
  else natDigits (n / 10) ++ [digitChar (n % 10)]
  decreasing_by exact Nat.div_lt_self (by omega) (by omega)

/-- Numeric value of a digit string, as Go's `strconv.Atoi` computes it
on a string of decimal digits. -/
def digitsToNat (ds : List Char) : Nat :=
  ds.foldl (fun a c => 10 * a + (c.toNat - 48)) 0

/-- `n` written in decimal and left-padded with `'0'` to width `w`
(Go's `fmt.Sprintf` with a `%0*d` verb: wider numbers are not
truncated). -/
def padID (w : Nat) (n : Nat) : String :=
  ⟨List.replicate (w - (natDigits n).length) '0' ++ natDigits n⟩

/-! ## kebabCase (from `internal/commands/new.go`) -/

/-- Character-wise action of `kebabCase`, abstracted over the
lower-casing character map `low`.  `kebabCase` in `new.go` first
applies the standard library's `strings.ToLower` — external collaborator
code, not part of this repository, which lower-cases character-wise by
the Unicode simple case mapping — then applies
`strings.ReplaceAll(s, " ", "-")` and `strings.ReplaceAll(s, "_", "-")`,
both single-character replacements, hence character-wise. -/
def kebabCharWith (low : Char → Char) (c : Char) : Char :=
  let l := low c
  if l = ' ' ∨ l = '_' then '-' else l

/-- `kebabCase` from `new.go` over an arbitrary lower-casing character
map: lower-case every character, then replace every space and
underscore with a hyphen. -/
def kebabCaseWith (low : Char → Char) (s : String) : String :=
  ⟨s.data.map (kebabCharWith low)⟩

/-- The lower-casing instance used to run the pipeline: Lean's
`Char.toLower`, the basic-latin restriction of the library's Unicode
lowering (the two agree on every character the tests exercise). -/
def kebabChar : Char → Char := kebabCharWith Char.toLower

/-- `kebabCase` from `new.go`, instantiated with the executable
basic-latin lowering. -/
def kebabCase (s : String) : String := ⟨s.data.map kebabChar⟩

/-! ## ID allocation -/

/-- Leading numeric identifier of an item filename: the (non-empty) run
of decimal digits at the front, which must be separated from the rest of
the name by a hyphen.  Returns the parsed value together with the width
of the digit run; `none` for a filename not matching the convention.
Modelled from the spec: `validation.GetNextID`'s per-file parsing is not
under `src/`; the spec says the allocator scans files matching the item
naming convention (leading numeric identifier, separated by a hyphen
from the remaining filename components) and parses the leading numeric
portion as an integer, skipping unparsable files. -/
def parseLeading (name : String) : Option (Nat × Nat) :=
  let ds := name.data.takeWhile Char.isDigit
  match ds, name.data.dropWhile Char.isDigit with
  | [], _ => none
  | _ :: _, '-' :: _ => some (digitsToNat ds, ds.length)
  | _ :: _, _ => none

/-- Modelled from the spec: `validation.GetNextID` is not under `src/`.
Per the spec, it scans every item file, parses the leading numeric
identifier of each matching filename (skipping unparsable ones), and
returns the maximum found value plus one as a zero-padded decimal
string whose width matches the existing identifiers, minimum 3 digits;
with no items it returns "001".  The item tree is given as the list of
item filenames. -/
def GetNextID (files : List String) : String :=
  let ps := files.filterMap parseLeading
  match ps with
  | [] => "001"
  | _ :: _ =>
    let maxId := (ps.map Prod.fst).foldl max 0
    let maxW := (ps.map Prod.snd).foldl max 0
    padID (max 3 maxW) (maxId + 1)

/-- Destination filename built by `createWorkItem` (`new.go` line 181):
`fmt.Sprintf("%s-%s.%s.md", nextID, kebabCase(title), template)`. -/
def mkItemFile (id title kind : String) : String :=
  id ++ "-" ++ kebabCase title ++ "." ++ kind ++ ".md"

/-- A sequence of item creations at the ID-allocation level: each step
allocates `GetNextID` over the current tree and adds the new item's
file, returning the list of assigned identifiers in creation order. -/
def createIDs : List (String × String) → List String → List String
  | [], _ => []
  | (t, k) :: rest, files =>
    let id := GetNextID files
    id :: createIDs rest (mkItemFile id t k :: files)

/-! ## Configuration and external world

`config.Config` supplies the status→folder mapping, the kind→template
mapping, and the default status (spec §3: keys unique, immutable per
invocation).  Go maps are embedded as association lists where the
leftmost binding for a key wins. -/

structure Config where
  statusFolders : List (String × String)
  templates : List (String × String)
  defaultStatus : String

/-- The list of valid status names `createWorkItem` builds from
`cfg.StatusFolders` (`new.go` lines 58-63). -/
def validStatuses (cfg : Config) : List String :=
  cfg.statusFolders.map Prod.fst

/-- Go-map lookup on an association list: the leftmost binding wins. -/
def mapGet (m : List (String × String)) (k : String) : Option String :=
  m.lookup k

/-- `filepath.Join` restricted to the shapes `createWorkItem` uses: a
non-empty left component joined to a relative right component. -/
def joinPath (a b : String) : String :=
  if b = "" then a else a ++ "/" ++ b

/-- The external collaborators of one `createWorkItem` invocation:
the item tree (for `validation.GetNextID`), today's date
(`time.Now().Format("2006-01-02")`), the template file reader
(`templates.ProcessTemplate`), the declared-inputs reader
(`templates.GetTemplateInputs`), the interactive input source
(spec §9: a pluggable scripted line reader; `none` models a failed
read or failed input validation), the interactive template selection,
and whether `os.MkdirAll` / `os.WriteFile` succeed. -/
structure World where
  files : List String
  today : String
  readTemplate : String → Option String
  templateInputs : String → Option (List String)
  promptLine : String → Option String
  chooseTemplate : Option String
  mkdirOk : Bool
  writeOk : Bool

/-- The error paths of `createWorkItem`, one constructor per
`return fmt.Errorf`/`return err` site in `new.go`. -/
inductive CreateError
  | helpInputsNeedsTemplate
  | templateSelectionFailed
  | templateInputsFailed
  | promptFailed
  | titleRequired
  | ambiguousStatus (a b : String) (valid : List String)
  | invalidStatus (s : String) (valid : List String)
  | templateProcessFailed
  | invalidStatusFolder (s : String)
  | mkdirFailed
  | writeFailed
  deriving DecidableEq

/-- `strings.Join(xs, ", ")`. -/
def joinComma : List String → String
  | [] => ""
  | [s] => s
  | s :: rest@(_ :: _) => s ++ ", " ++ joinComma rest

/-- The user-visible message of each error, from the `fmt.Errorf`
format strings in `new.go` (`\x27` is the single-quote character those
formats put around rejected values). -/
def CreateError.message : CreateError → String
  | .helpInputsNeedsTemplate => "template must be specified when using --help-inputs"
  | .templateSelectionFailed => "invalid template selection"
  | .templateInputsFailed => "failed to get template inputs"
  | .promptFailed => "failed to read input"
  | .titleRequired => "title is required (provide as argument or use --interactive flag)"
  | .ambiguousStatus a b valid =>
    "invalid status: neither \x27" ++ a ++ "\x27 nor \x27" ++ b ++
      "\x27 is a valid status (valid: " ++ joinComma valid ++ ")"
  | .invalidStatus s valid =>
    "invalid status \x27" ++ s ++ "\x27 (valid: " ++ joinComma valid ++ ")"
  | .templateProcessFailed => "failed to process template"
  | .invalidStatusFolder s => "invalid status folder for status \x27" ++ s ++ "\x27"
  | .mkdirFailed => "failed to create status folder"
  | .writeFailed => "failed to write work item file"

/-- Filesystem changes `createWorkItem` can make, in order. -/
inductive Effect
  | mkdir (folder : String)
  | write (path : String) (inputs : List (String × String))
  deriving DecidableEq

/-- Data of a successfully created work item. -/
structure CreatedItem where
  id : String
  title : String
  status : String
  kind : String
  filename : String
  folder : String
  path : String
  inputs : List (String × String)
  deriving DecidableEq

/-- Successful outcomes of the `new` command: an item was created, or
`--help-inputs` listed a template's inputs instead. -/
inductive Outcome
  | created (r : CreatedItem)
  | listedInputs (template : String)
  deriving DecidableEq

/-- Resolved positional arguments. -/
structure ParsedArgs where
  template : String
  status : String
  title : String
  description : String
  deriving DecidableEq

/-- Positional-argument resolution from `createWorkItem`
(`new.go` lines 50-89): `args[0]` is the template; `args[1]` is the
status when it matches a configured status, else the title; `args[2]`
fills whichever of status/title is still empty, erroring when neither
`args[1]` nor `args[2]` is a valid status while both slots cannot be
the title; `args[3]` is the description. -/
def resolveArgs (cfg : Config) (args : List String) : Except CreateError ParsedArgs :=
  let statusSet := validStatuses cfg
  let template := args.getD 0 ""
  let st1 : String × String :=
    if 1 < args.length then
      if statusSet.contains (args.getD 1 "") then (args.getD 1 "", "")
      else ("", args.getD 1 "")
    else ("", "")
  let status := st1.1
  let title := st1.2
  let description := if 3 < args.length then args.getD 3 "" else ""
  if 2 < args.length then
    if status = "" then
      if statusSet.contains (args.getD 2 "") then
        .ok ⟨template, args.getD 2 "", title, description⟩
      else if title = "" then
        .ok ⟨template, status, args.getD 2 "", description⟩
      else
        .error (.ambiguousStatus (args.getD 1 "") (args.getD 2 "") statusSet)
    else if title = "" then
      .ok ⟨template, status, args.getD 2 "", description⟩
    else
      .ok ⟨template, status, title, description⟩
  else
    .ok ⟨template, status, title, description⟩

/-- The computed input fields (`new.go` lines 137-141). -/
def computedInputs (id title status created : String) : List (String × String) :=
  [("id", id), ("title", title), ("status", status), ("created", created)]

/-- Interactive prompting for template-declared inputs still missing
(`new.go` lines 162-170): each declared input not present in the map is
prompted for and inserted. -/
def promptMissing (w : World) : List String → List (String × String) →
    Except CreateError (List (String × String))
  | [], inputs => .ok inputs
  | name :: rest, inputs =>
    if (mapGet inputs name).isSome then promptMissing w rest inputs
    else
      match w.promptLine name with
      | none => .error .promptFailed
      | some v => promptMissing w rest (inputs ++ [(name, v)])

/-- `createWorkItem` from `new.go`, over an explicit `World`.  Returns
the command's result together with the trace of filesystem changes
made (folder creation, file write). -/
def createWorkItem (cfg : Config) (args : List String) (interactive : Bool)
    (inputValues : List (String × String)) (helpInputs : Bool) (w : World) :
    Except CreateError Outcome × List Effect :=
  match resolveArgs cfg args with
  | .error e => (.error e, [])
  | .ok pa =>
    let step2 : Except CreateError String :=
      if pa.template = "" then
        if helpInputs then .error .helpInputsNeedsTemplate
        else
          match w.chooseTemplate with
          | none => .error .templateSelectionFailed
          | some t => .ok t
      else .ok pa.template
    match step2 with
    | .error e => (.error e, [])
    | .ok template =>
      let templatePath := joinPath ".work" ((cfg.templates.lookup template).getD "")
      if helpInputs then
        match w.templateInputs templatePath with
        | none => (.error .templateInputsFailed, [])
        | some _ => (.ok (.listedInputs template), [])
      else
        let stepTitle : Except CreateError String :=
          if pa.title = "" then
            if interactive then
              match w.promptLine "Enter work item title: " with
              | none => .error .promptFailed
              | some t => .ok t
            else .error .titleRequired
          else .ok pa.title
        match stepTitle with
        | .error e => (.error e, [])
        | .ok title =>
          let status := if pa.status = "" then cfg.defaultStatus else pa.status
          if (cfg.statusFolders.lookup status).isNone then
            (.error (.invalidStatus status (validStatuses cfg)), [])
          else
            let nextID := GetNextID w.files
            let inputValues2 :=
              if pa.description ≠ "" ∧ (mapGet inputValues "description").isNone then
                inputValues ++ [("description", pa.description)]
              else inputValues
            let inputs0 := inputValues2 ++ computedInputs nextID title status w.today
            let stepInputs : Except CreateError (List (String × String)) :=
              if interactive then
                match w.templateInputs templatePath with
                | none => .error .templateInputsFailed
                | some decls => promptMissing w decls inputs0
              else .ok inputs0
            match stepInputs with
            | .error e => (.error e, [])
            | .ok inputs =>
              match w.readTemplate templatePath with
              | none => (.error .templateProcessFailed, [])
              | some _ =>
                let filename := mkItemFile nextID title template
                match cfg.statusFolders.lookup status with
                | none => (.error (.invalidStatusFolder status), [])
                | some folder =>
                  if folder = "" then (.error (.invalidStatusFolder status), [])
                  else
                    let folderPath := joinPath ".work" folder
                    if ¬ w.mkdirOk then (.error .mkdirFailed, [])
                    else
                      let path := joinPath folderPath filename
                      if ¬ w.writeOk then (.error .writeFailed, [Effect.mkdir folderPath])
                      else
                        (.ok (.created ⟨nextID, title, status, template, filename, folder,
                            path, inputs⟩),
                          [Effect.mkdir folderPath, Effect.write path inputs])

/-! ## Item validation and linting

The Item Validator and the Linter (`lintWorkItems`) are exercised by
the repository's tests but their code is not under `src/`; they are
modelled from the spec (§4.3, §4.4). -/

/-- One field-level validation defect (spec §7: collected, never
thrown). -/
inductive Issue
  | missingField (name : String)
  | invalidStatusField (value : String)
  | invalidKind (value : String)
  | invalidCreated (value : String)
  deriving DecidableEq

/-- Gregorian leap-year rule. -/
def isLeapYear (y : Nat) : Bool :=
  (y % 4 = 0 ∧ y % 100 ≠ 0) ∨ y % 400 = 0

/-- Number of days in month `m` of year `y`. -/
def daysInMonth (y m : Nat) : Nat :=
  if m = 2 then (if isLeapYear y then 29 else 28)
  else if m = 4 ∨ m = 6 ∨ m = 9 ∨ m = 11 then 30
  else 31

/-- Modelled from the spec: the `created` field "must parse as a
calendar date in the configured format" — the `2006-01-02` Go layout:
four year digits, hyphen, two month digits, hyphen, two day digits,
with a real calendar month and day. -/
def isValidDate (s : String) : Bool :=
  match s.data with
  | [y1, y2, y3, y4, '-', m1, m2, '-', d1, d2] =>
    if [y1, y2, y3, y4, m1, m2, d1, d2].all Char.isDigit then
      let y := digitsToNat [y1, y2, y3, y4]
      let m := digitsToNat [m1, m2]
      let d := digitsToNat [d1, d2]
      decide (1 ≤ m ∧ m ≤ 12 ∧ 1 ≤ d ∧ d ≤ daysInMonth y m)
    else false
  | _ => false

/-- Modelled from the spec: the Item Validator is not under `src/`.
Per spec §4.3 it checks, on the parsed front matter of one item:
`status` non-empty and in the configured status set, `kind` in the
configured kind set, `created` a date in the configured format, `id`
and `title` present and non-empty; unknown extra fields are ignored;
one issue per independent violation, no short-circuit. -/
def validate (cfg : Config) (fm : List (String × String)) : List Issue :=
  let statusIssues :=
    match mapGet fm "status" with
    | none => [Issue.missingField "status"]
    | some v =>
      if v ≠ "" ∧ (validStatuses cfg).contains v then []
      else [Issue.invalidStatusField v]
  let kindIssues :=
    match mapGet fm "kind" with
    | none => [Issue.missingField "kind"]
    | some v =>
      if (cfg.templates.map Prod.fst).contains v then []
      else [Issue.invalidKind v]
  let createdIssues :=
    match mapGet fm "created" with
    | none => [Issue.missingField "created"]
    | some v => if isValidDate v then [] else [Issue.invalidCreated v]
  let idIssues :=
    match mapGet fm "id" with
    | none => [Issue.missingField "id"]
    | some v => if v = "" then [Issue.missingField "id"] else []
  let titleIssues :=
    match mapGet fm "title" with
    | none => [Issue.missingField "title"]
    | some v => if v = "" then [Issue.missingField "title"] else []
  statusIssues ++ kindIssues ++ createdIssues ++ idIssues ++ titleIssues

/-- Human-readable description of one issue. -/
def Issue.describe : Issue → String
  | .missingField n => "missing required field " ++ n
  | .invalidStatusField v => "invalid status " ++ v
  | .invalidKind v => "invalid kind " ++ v
  | .invalidCreated v => "invalid created date " ++ v

/-- All issues of one item joined with `"; "`. -/
def describeIssues : List Issue → String
  | [] => ""
  | [i] => i.describe
  | i :: rest@(_ :: _) => i.describe ++ "; " ++ describeIssues rest

/-- One report line per offending `(path, issue-text)` pair. -/
def lintReport : List (String × String) → String
  | [] => ""
  | (p, t) :: rest => p ++ ": " ++ t ++ "\n" ++ lintReport rest

/-- Modelled from the spec: `lintWorkItems` is not under `src/` (only
its test is).  Per spec §4.4 it runs the Item Validator on every item
of the tree, accumulating `(path, issues)` pairs; with at least one
offending item it returns a single aggregate error whose message
carries the literal marker "validation failed" and enumerates every
offending path with its issues; with none it returns no error.  The
tree is given as `(path, parsed front matter)` pairs. -/
def lintAll (cfg : Config) (tree : List (String × List (String × String))) :
    Option String :=
  let bad := tree.filter (fun it => ¬ (validate cfg it.2).isEmpty)
  if bad.isEmpty then none
  else
    some ("validation failed:\n" ++
      lintReport (bad.map (fun it => (it.1, describeIssues (validate cfg it.2)))))

/-- `sub` occurs contiguously inside `hay`. -/
def strHas (hay sub : String) : Prop :=
  ∃ pre post, hay = pre ++ sub ++ post

/-- The multiset of parsed `(id, width)` pairs of the tree after `k`
creations from an empty tree. -/
def treeIDs (k : Nat) : List (Nat × Nat) :=
  (List.range k).map (fun j => (k - j, max 3 (natDigits (k - j)).length))

def cfgA : Config :=
  ⟨[("todo", "1_todo"), ("in-progress", "2_in-progress")],
   [("prd", "templates/prd.md")], "todo"⟩

def cfgB : Config :=
  ⟨[("", "0_unnamed"), ("todo", "1_todo")], [("prd", "templates/prd.md")], "todo"⟩

def cfgC : Config :=
  ⟨[("todo", "1_todo")], [("prd", "templates/prd.md")], "missing"⟩

def wEx : World :=
  ⟨[], "2024-01-01", fun _ => some "# body", fun _ => some ["description"],
   fun _ => some "typed", some "prd", true, true⟩

def wBad : World :=
  ⟨[], "2024-01-01", fun _ => some "# body", fun _ => some ["description"],
   fun _ => some "typed", some "prd", true, false⟩

end Kira

namespace Kira

theorem createWorkItem_err (cfg : Config) (args : List String) (interactive : Bool)
    (inputValues : List (String × String)) (helpInputs : Bool) (w : World)
    (e : CreateError) (effs : List Effect)
    (h : createWorkItem cfg args interactive inputValues helpInputs w = (.error e, effs)) :
    (∀ p ins, Effect.write p ins ∉ effs) ∧
    (effs = [] ∨ (e = CreateError.writeFailed ∧ ∃ f, effs = [Effect.mkdir f])) := by
  simp only [createWorkItem] at h
  repeat' split at h
  all_goals (try (obtain ⟨h1, h2⟩ := Prod.mk.injEq .. ▸ h; subst h2))
  all_goals simp_all

theorem promptMissing_pres (w : World) (decls : List String)
    (inputs out : List (String × String)) (k v : String)
    (hv : mapGet inputs k = some v)
    (h : promptMissing w decls inputs = .ok out) : mapGet out k = some v := by
  induction decls generalizing inputs with
  | nil =>
    simp only [promptMissing, Except.ok.injEq] at h
    rw [← h]
    exact hv
  | cons name rest ih =>
    simp only [promptMissing] at h
    split at h
    · exact ih _ hv h
    · cases hp : w.promptLine name <;> rw [hp] at h
      · simp at h
      · refine ih _ ?_ h
        have hv2 : List.lookup k inputs = some v := hv
        simp [mapGet, List.lookup_append, hv2]

theorem createWorkItem_ok (cfg : Config) (args : List String) (interactive : Bool)
    (inputValues : List (String × String)) (helpInputs : Bool) (w : World)
    (r : CreatedItem) (effs : List Effect)
    (h : createWorkItem cfg args interactive inputValues helpInputs w =
      (.ok (.created r), effs)) :
    ∃ pa : ParsedArgs,
      resolveArgs cfg args = .ok pa ∧
      helpInputs = false ∧
      (pa.template = "" → w.chooseTemplate = some r.kind) ∧
      (pa.template ≠ "" → r.kind = pa.template) ∧
      (pa.title = "" → interactive = true ∧
        w.promptLine "Enter work item title: " = some r.title) ∧
      (pa.title ≠ "" → r.title = pa.title) ∧
      r.status = (if pa.status = "" then cfg.defaultStatus else pa.status) ∧
      r.id = GetNextID w.files ∧
      r.filename = mkItemFile r.id r.title r.kind ∧
      cfg.statusFolders.lookup r.status = some r.folder ∧
      r.folder ≠ "" ∧
      r.path = joinPath (joinPath ".work" r.folder) r.filename ∧
      effs = [Effect.mkdir (joinPath ".work" r.folder), Effect.write r.path r.inputs] ∧
      (∀ k v : String,
        mapGet ((if pa.description ≠ "" ∧ (mapGet inputValues "description").isNone then
            inputValues ++ [("description", pa.description)]
          else inputValues) ++
          computedInputs r.id r.title r.status w.today) k = some v →
        mapGet r.inputs k = some v) := by
  simp only [createWorkItem] at h
  repeat' split at h
  all_goals (obtain ⟨h1, h2⟩ := Prod.mk.injEq .. ▸ h; subst h2)
  all_goals try exact Except.noConfusion h1
  all_goals try exact Outcome.noConfusion (Except.ok.inj h1)
  all_goals (
    have hr := Outcome.created.inj (Except.ok.inj h1)
    subst hr
    rename_i x2 pa heq5 st1 tmplR heq4 hHelp st2 ttlR heq3 hst hnn stI inps heq2 x1 v1 heq1 x0 vf heqLk hvne hMk hWr
    refine ⟨pa, heq5, by simpa using hHelp, ?_, ?_, ?_, ?_, by simp [hst], rfl, rfl, ?_, hvne, rfl, rfl, ?_⟩
    · intro ht
      rw [if_pos ht, if_neg hHelp] at heq4
      cases hc : w.chooseTemplate <;> rw [hc] at heq4
      · exact Except.noConfusion heq4
      · exact congrArg some (Except.ok.inj heq4)
    · intro ht
      rw [if_neg ht] at heq4
      exact (Except.ok.inj heq4).symm
    · intro ht
      rw [if_pos ht] at heq3
      by_cases hi : interactive = true
      · rw [if_pos hi] at heq3
        cases hp : w.promptLine "Enter work item title: " <;> rw [hp] at heq3
        · exact Except.noConfusion heq3
        · exact ⟨hi, congrArg some (Except.ok.inj heq3)⟩
      · rw [if_neg hi] at heq3
        exact Except.noConfusion heq3
    · intro ht
      rw [if_neg ht] at heq3
      exact (Except.ok.inj heq3).symm
    · exact heqLk
    · intro k v hv
      by_cases hi : interactive = true
      · rw [if_pos hi] at heq2
        cases hd : w.templateInputs (joinPath ".work" ((List.lookup tmplR cfg.templates).getD "")) <;>
          rw [hd] at heq2
        · exact Except.noConfusion heq2
        · exact promptMissing_pres w _ _ _ k v hv heq2
      · rw [if_neg hi] at heq2
        rw [← Except.ok.inj heq2]
        exact hv)

theorem strHas_append_left {a sub : String} (b : String) (h : strHas a sub) :
    strHas (a ++ b) sub := by
  obtain ⟨pre, post, hp⟩ := h
  exact ⟨pre, post ++ b, by simp [hp, String.append_assoc]⟩

theorem strHas_append_right {b sub : String} (a : String) (h : strHas b sub) :
    strHas (a ++ b) sub := by
  obtain ⟨pre, post, hp⟩ := h
  exact ⟨a ++ pre, post, by simp [hp, String.append_assoc]⟩

theorem strHas_refl (s : String) : strHas s s :=
  ⟨"", "", by simp⟩

theorem strHas_trans {a b c : String} (h1 : strHas a b) (h2 : strHas b c) :
    strHas a c := by
  obtain ⟨p1, q1, e1⟩ := h1
  obtain ⟨p2, q2, e2⟩ := h2
  exact ⟨p1 ++ p2, q2 ++ q1, by rw [e1, e2]; simp [String.append_assoc]⟩

theorem joinComma_has {v : String} : ∀ {l : List String}, v ∈ l → strHas (joinComma l) v
  | [s], hm => by
    rw [List.mem_singleton] at hm
    subst hm
    simp only [joinComma]
    exact strHas_refl v
  | s :: b :: rest, hm => by
    simp only [joinComma]
    rcases List.mem_cons.mp hm with hv | hv
    · subst hv
      exact strHas_append_left _ (strHas_append_left _ (strHas_refl v))
    · rw [String.append_assoc]
      exact strHas_append_right _ (strHas_append_right _ (joinComma_has hv))

theorem resolveArgs_ambiguous (cfg : Config) (args : List String)
    (hlen : 3 ≤ args.length)
    (h1 : (validStatuses cfg).contains (args.getD 1 "") = false)
    (h2 : (validStatuses cfg).contains (args.getD 2 "") = false)
    (hne : args.getD 1 "" ≠ "") :
    resolveArgs cfg args =
      .error (.ambiguousStatus (args.getD 1 "") (args.getD 2 "")
        (validStatuses cfg)) := by
  have l1 : 1 < args.length := by omega
  have l2 : 2 < args.length := by omega
  have m1 : ¬ args.getD 1 "" ∈ validStatuses cfg := by simpa using h1
  have m2 : ¬ args.getD 2 "" ∈ validStatuses cfg := by simpa using h2
  simp only [List.getD_eq_getElem?_getD, List.getElem?_eq_getElem l1,
    List.getElem?_eq_getElem l2, Option.getD_some] at m1 m2 hne ⊢
  simp [resolveArgs, l1, l2, m1, m2, hne]

/-- C4: with at least three positional arguments where neither the
second nor the third is a configured status and the title slot is
already taken by the second, creation fails with the ambiguous-status
error naming both rejected values and listing the valid statuses, and
no filesystem change happens. -/
theorem C4_ambiguous_args (cfg : Config) (args : List String) (interactive : Bool)
    (inputValues : List (String × String)) (helpInputs : Bool) (w : World)
    (hlen : 3 ≤ args.length)
    (h1 : (validStatuses cfg).contains (args.getD 1 "") = false)
    (h2 : (validStatuses cfg).contains (args.getD 2 "") = false)
    (hne : args.getD 1 "" ≠ "") :
    createWorkItem cfg args interactive inputValues helpInputs w =
      (.error (.ambiguousStatus (args.getD 1 "") (args.getD 2 "")
        (validStatuses cfg)), []) ∧
    strHas ((CreateError.ambiguousStatus (args.getD 1 "") (args.getD 2 "")
      (validStatuses cfg)).message) (args.getD 1 "") ∧
    strHas ((CreateError.ambiguousStatus (args.getD 1 "") (args.getD 2 "")
      (validStatuses cfg)).message) (args.getD 2 "") ∧
    ∀ v ∈ validStatuses cfg,
      strHas ((CreateError.ambiguousStatus (args.getD 1 "") (args.getD 2 "")
        (validStatuses cfg)).message) v := by
  have hra := resolveArgs_ambiguous cfg args hlen h1 h2 hne
  refine ⟨?_, ?_, ?_, ?_⟩
  · unfold createWorkItem
    rw [hra]
  · simp only [CreateError.message]
    exact strHas_append_left _ (strHas_append_left _ (strHas_append_left _
      (strHas_append_left _ (strHas_append_left _ (strHas_append_right _
        (strHas_refl _))))))
  · simp only [CreateError.message]
    exact strHas_append_left _ (strHas_append_left _ (strHas_append_left _
      (strHas_append_right _ (strHas_refl _))))
  · intro v hv
    simp only [CreateError.message]
    exact strHas_append_left _ (strHas_append_right _ (joinComma_has hv))

/-- C6: when the positional arguments resolve no status, the created
item's status is the Config's default status. -/
theorem C6_default_status (cfg : Config) (args : List String) (interactive : Bool)
    (inputValues : List (String × String)) (helpInputs : Bool) (w : World)
    (pa : ParsedArgs) (r : CreatedItem) (effs : List Effect)
    (hpa : resolveArgs cfg args = .ok pa) (hst : pa.status = "")
    (h : createWorkItem cfg args interactive inputValues helpInputs w =
      (.ok (.created r), effs)) :
    r.status = cfg.defaultStatus := by
  obtain ⟨pa2, hpa2, -, -, -, -, -, hstat, -⟩ :=
    createWorkItem_ok cfg args interactive inputValues helpInputs w r effs h
  rw [hpa] at hpa2
  obtain rfl : pa = pa2 := Except.ok.inj hpa2
  rw [hstat, if_pos hst]

/-- C7: a creation request that reaches the status check with a
resolved status that has no configured folder mapping fails with the
invalid-status error and makes no filesystem change. -/
theorem C7_invalid_status (cfg : Config) (args : List String) (interactive : Bool)
    (inputValues : List (String × String)) (w : World) (pa : ParsedArgs)
    (hpa : resolveArgs cfg args = .ok pa)
    (htmpl : pa.template ≠ "") (htitle : pa.title ≠ "")
    (hlk : cfg.statusFolders.lookup
      (if pa.status = "" then cfg.defaultStatus else pa.status) = none) :
    createWorkItem cfg args interactive inputValues false w =
      (.error (.invalidStatus
        (if pa.status = "" then cfg.defaultStatus else pa.status)
        (validStatuses cfg)), []) := by
  unfold createWorkItem
  rw [hpa]
  simp [htmpl, htitle, hlk]

/-- C8: every successfully created item's file is named
`<id>-<kebab-cased title>.<template-kind>.md` and placed in the folder
configured for the resolved status, with the id allocated by
`GetNextID`. -/
theorem C8_filename (cfg : Config) (args : List String) (interactive : Bool)
    (inputValues : List (String × String)) (helpInputs : Bool) (w : World)
    (r : CreatedItem) (effs : List Effect)
    (h : createWorkItem cfg args interactive inputValues helpInputs w =
      (.ok (.created r), effs)) :
    r.filename = r.id ++ "-" ++ kebabCase r.title ++ "." ++ r.kind ++ ".md" ∧
    cfg.statusFolders.lookup r.status = some r.folder ∧
    r.path = joinPath (joinPath ".work" r.folder) r.filename ∧
    r.id = GetNextID w.files := by
  obtain ⟨pa2, -, -, -, -, -, -, -, hid, hfn, hlk, -, hpath, -⟩ :=
    createWorkItem_ok cfg args interactive inputValues helpInputs w r effs h
  exact ⟨hfn, hlk, hpath, hid⟩

/-- C9: whenever `createWorkItem` returns an error, no work-item file
has been written; the only filesystem change that can persist is the
creation of the status folder, and only when the subsequent file write
itself failed. -/
theorem C9_no_file_on_error (cfg : Config) (args : List String) (interactive : Bool)
    (inputValues : List (String × String)) (helpInputs : Bool) (w : World)
    (e : CreateError) (effs : List Effect)
    (h : createWorkItem cfg args interactive inputValues helpInputs w =
      (.error e, effs)) :
    (∀ p ins, Effect.write p ins ∉ effs) ∧
    (effs = [] ∨ (e = CreateError.writeFailed ∧ ∃ f, effs = [Effect.mkdir f])) :=
  createWorkItem_err cfg args interactive inputValues helpInputs w e effs h

theorem resolveArgs_status_title (cfg : Config) (tmpl s t : String)
    (hs : (validStatuses cfg).contains s = true)
    (ht : (validStatuses cfg).contains t = false) :
    resolveArgs cfg [tmpl, s, t] = .ok ⟨tmpl, s, t, ""⟩ ∧
    resolveArgs cfg [tmpl, t, s] = .ok ⟨tmpl, s, t, ""⟩ := by
  have ms : s ∈ validStatuses cfg := by simpa using hs
  have mt : ¬ t ∈ validStatuses cfg := by simpa using ht
  have hsne : s ≠ t := fun he => mt (he ▸ ms)
  constructor
  · simp [resolveArgs, ms, mt]
  · simp [resolveArgs, ms, mt]

/-- C3 (amended): for a configured non-empty status `s` and a
non-empty title `t` that is not a configured status, the positional
orders `(template, s, t)` and `(template, t, s)` resolve identically to
status `s` and title `t`, the whole creation pipeline behaves
identically for both orders, and a successful creation files the item
under `s`'s configured folder with title `t`. -/
theorem C3_order_independent (cfg : Config) (tmpl s t : String)
    (interactive : Bool) (inputValues : List (String × String))
    (helpInputs : Bool) (w : World)
    (hs : (validStatuses cfg).contains s = true) (hsne : s ≠ "")
    (ht : (validStatuses cfg).contains t = false) (htne : t ≠ "") :
    resolveArgs cfg [tmpl, s, t] = .ok ⟨tmpl, s, t, ""⟩ ∧
    resolveArgs cfg [tmpl, t, s] = .ok ⟨tmpl, s, t, ""⟩ ∧
    createWorkItem cfg [tmpl, s, t] interactive inputValues helpInputs w =
      createWorkItem cfg [tmpl, t, s] interactive inputValues helpInputs w ∧
    ∀ r effs,
      createWorkItem cfg [tmpl, s, t] interactive inputValues helpInputs w =
        (.ok (.created r), effs) →
      r.status = s ∧ r.title = t ∧ cfg.statusFolders.lookup s = some r.folder := by
  obtain ⟨e1, e2⟩ := resolveArgs_status_title cfg tmpl s t hs ht
  refine ⟨e1, e2, ?_, ?_⟩
  · unfold createWorkItem
    rw [e1, e2]
  · intro r effs h
    obtain ⟨pa2, hpa2, -, -, -, -, htt, hstat, -, -, hlk, -, -, -, -⟩ :=
      createWorkItem_ok cfg [tmpl, s, t] interactive inputValues helpInputs w r effs h
    rw [e1] at hpa2
    obtain rfl : (⟨tmpl, s, t, ""⟩ : ParsedArgs) = pa2 := Except.ok.inj hpa2
    have hrs : r.status = s := by
      rw [hstat]
      simp [hsne]
    have hrt : r.title = t := htt htne
    refine ⟨hrs, hrt, ?_⟩
    rw [← hrs]
    exact hlk

/-- C5: in the input map passed to rendering, a directly supplied
key/value override beats the positional description, which beats the
computed `id`/`title`/`status`/`created` fields. -/
theorem C5_input_precedence (cfg : Config) (args : List String) (interactive : Bool)
    (inputValues : List (String × String)) (helpInputs : Bool) (w : World)
    (pa : ParsedArgs) (r : CreatedItem) (effs : List Effect)
    (hpa : resolveArgs cfg args = .ok pa)
    (h : createWorkItem cfg args interactive inputValues helpInputs w =
      (.ok (.created r), effs)) :
    ∀ k v : String,
      ((mapGet inputValues k).or
        ((if k = "description" ∧ pa.description ≠ "" then some pa.description
          else none).or
          (mapGet (computedInputs r.id r.title r.status w.today) k))) = some v →
      mapGet r.inputs k = some v := by
  obtain ⟨pa2, hpa2, -, -, -, -, -, -, -, -, -, -, -, -, hinp⟩ :=
    createWorkItem_ok cfg args interactive inputValues helpInputs w r effs h
  rw [hpa] at hpa2
  obtain rfl : pa = pa2 := Except.ok.inj hpa2
  intro k v hv
  apply hinp k v
  rw [show mapGet ((if pa.description ≠ "" ∧ (mapGet inputValues "description").isNone
      then inputValues ++ [("description", pa.description)] else inputValues) ++
      computedInputs r.id r.title r.status w.today) k =
    (mapGet (if pa.description ≠ "" ∧ (mapGet inputValues "description").isNone
      then inputValues ++ [("description", pa.description)] else inputValues) k).or
      (mapGet (computedInputs r.id r.title r.status w.today) k) from
    List.lookup_append]
  cases hiv : mapGet inputValues k with
  | some x =>
    rw [hiv] at hv
    have hx : x = v := by simpa using hv
    subst hx
    have h2 : mapGet (if pa.description ≠ "" ∧ (mapGet inputValues "description").isNone
        then inputValues ++ [("description", pa.description)] else inputValues) k =
        some x := by
      split
      · rw [show mapGet (inputValues ++ [("description", pa.description)]) k =
          (mapGet inputValues k).or (mapGet [("description", pa.description)] k) from
          List.lookup_append]
        rw [hiv]
        rfl
      · exact hiv
    rw [h2]
    rfl
  | none =>
    rw [hiv] at hv
    simp only [Option.none_or] at hv
    by_cases hk : k = "description"
    · subst hk
      by_cases hd : pa.description ≠ ""
      · rw [if_pos ⟨rfl, hd⟩] at hv
        have hc : pa.description ≠ "" ∧ (mapGet inputValues "description").isNone :=
          ⟨hd, by simp [hiv]⟩
        rw [if_pos hc]
        have h3 : mapGet (inputValues ++ [("description", pa.description)]) "description" =
            some pa.description := by
          rw [show mapGet (inputValues ++ [("description", pa.description)]) "description" =
            (mapGet inputValues "description").or
              (mapGet [("description", pa.description)] "description") from
            List.lookup_append]
          rw [hiv]
          rfl
        rw [h3]
        simpa using hv
      · push_neg at hd
        rw [if_neg (by simp [hd])] at hv
        simp only [Option.none_or] at hv
        rw [if_neg (by simp [hd, hiv])]
        rw [hiv, Option.none_or]
        exact hv
    · rw [if_neg (by simp [hk])] at hv
      simp only [Option.none_or] at hv
      have h4 : mapGet [("description", pa.description)] k = none := by
        simp [mapGet, List.lookup, show (k == "description") = false by simpa using hk]
      split
      · rw [show mapGet (inputValues ++ [("description", pa.description)]) k =
          (mapGet inputValues k).or (mapGet [("description", pa.description)] k) from
          List.lookup_append]
        rw [hiv, h4]
        simpa using hv
      · rw [hiv, Option.none_or]
        exact hv

theorem digitChar_isDigit {n : Nat} (h : n < 10) : (digitChar n).isDigit = true := by
  interval_cases n <;> decide

theorem digitChar_toNat {n : Nat} (h : n < 10) : (digitChar n).toNat = 48 + n := by
  interval_cases n <;> decide

theorem natDigits_ne_nil (n : Nat) : natDigits n ≠ [] := by
  rw [natDigits]
  split <;> simp

theorem natDigits_all_digit (n : Nat) : ∀ c ∈ natDigits n, c.isDigit = true := by
  induction n using Nat.strong_induction_on with
  | _ n ih =>
    rw [natDigits]
    split
    · intro c hc
      rw [List.mem_singleton] at hc
      subst hc
      exact digitChar_isDigit (by omega)
    · intro c hc
      rw [List.mem_append] at hc
      rcases hc with hc | hc
      · exact ih (n / 10) (Nat.div_lt_self (by omega) (by omega)) c hc
      · rw [List.mem_singleton] at hc
        subst hc
        exact digitChar_isDigit (Nat.mod_lt _ (by omega))

theorem digitsToNat_append_digit (l : List Char) (c : Char) :
    digitsToNat (l ++ [c]) = 10 * digitsToNat l + (c.toNat - 48) := by
  unfold digitsToNat
  rw [List.foldl_append]
  rfl

theorem digitsToNat_natDigits (n : Nat) : digitsToNat (natDigits n) = n := by
  induction n using Nat.strong_induction_on with
  | _ n ih =>
    rw [natDigits]
    split
    · show digitsToNat [digitChar n] = n
      unfold digitsToNat
      simp [digitChar_toNat (show n < 10 by omega)]
    · rw [digitsToNat_append_digit,
        ih (n / 10) (Nat.div_lt_self (by omega) (by omega)),
        digitChar_toNat (Nat.mod_lt _ (by omega))]
      omega

theorem natDigits_length_pos (n : Nat) : 0 < (natDigits n).length :=
  List.length_pos.mpr (natDigits_ne_nil n)

theorem natDigits_length_eq (n : Nat) :
    (natDigits n).length =
      (if n < 10 then 1 else (natDigits (n / 10)).length + 1) := by
  conv_lhs => rw [natDigits]
  split <;> simp

theorem natDigits_length_mono : ∀ {m n : Nat}, m ≤ n →
    (natDigits m).length ≤ (natDigits n).length := by
  intro m n
  induction n using Nat.strong_induction_on generalizing m with
  | _ n ih =>
    intro hmn
    rw [natDigits_length_eq m, natDigits_length_eq n]
    by_cases hn : n < 10
    · rw [if_pos (by omega : m < 10), if_pos hn]
    · by_cases hm : m < 10
      · rw [if_pos hm, if_neg hn]
        omega
      · rw [if_neg hm, if_neg hn]
        have := ih (n / 10) (Nat.div_lt_self (by omega) (by omega))
          (Nat.div_le_div_right hmn)
        omega

theorem padID_data (w n : Nat) : (padID w n).data =
    List.replicate (w - (natDigits n).length) '0' ++ natDigits n := rfl

theorem padID_data_length (w n : Nat) :
    (padID w n).data.length = max w (natDigits n).length := by
  rw [padID_data]
  simp only [List.length_append, List.length_replicate]
  omega

theorem padID_ne_nil (w n : Nat) : (padID w n).data ≠ [] := by
  rw [padID_data]
  intro hc
  have := natDigits_ne_nil n
  simp at hc
  exact this hc.2

theorem padID_all_digit (w n : Nat) : ∀ c ∈ (padID w n).data, c.isDigit = true := by
  rw [padID_data]
  intro c hc
  rw [List.mem_append] at hc
  rcases hc with hc | hc
  · rw [List.eq_of_mem_replicate hc]
    decide
  · exact natDigits_all_digit n c hc

theorem foldl_step_zeros (k : Nat) :
    List.foldl (fun a c => 10 * a + (c.toNat - 48)) 0 (List.replicate k '0') = 0 := by
  induction k with
  | zero => rfl
  | succ j ih =>
    rw [List.replicate_succ, List.foldl_cons]
    simpa using ih

theorem digitsToNat_padID (w n : Nat) : digitsToNat (padID w n).data = n := by
  rw [padID_data]
  unfold digitsToNat
  rw [List.foldl_append, foldl_step_zeros]
  exact digitsToNat_natDigits n

theorem padID_inj {a b : Nat} (h : padID 3 a = padID 3 b) : a = b := by
  have h2 := congrArg (fun s => digitsToNat s.data) h
  simpa [digitsToNat_padID] using h2

theorem takeWhile_all_append {p : Char → Bool} :
    ∀ (l₁ : List Char) (x : Char) (l₂ : List Char),
      (∀ c ∈ l₁, p c = true) → p x = false →
      (l₁ ++ x :: l₂).takeWhile p = l₁ ∧ (l₁ ++ x :: l₂).dropWhile p = x :: l₂ := by
  intro l₁
  induction l₁ with
  | nil =>
    intro x l₂ _ hx
    simp [List.takeWhile_cons, List.dropWhile_cons, hx]
  | cons a rest ih =>
    intro x l₂ hall hx
    have ha : p a = true := hall a (List.mem_cons_self a rest)
    have hrest : ∀ c ∈ rest, p c = true := fun c hc => hall c (List.mem_cons_of_mem a hc)
    obtain ⟨ht, hd⟩ := ih x l₂ hrest hx
    constructor
    · rw [List.cons_append, List.takeWhile_cons, if_pos ha, ht]
    · rw [List.cons_append, List.dropWhile_cons, if_pos ha, hd]

theorem parseLeading_eq (s : String) (ds rest : List Char)
    (hs : s.data = ds ++ '-' :: rest)
    (hd : ∀ c ∈ ds, c.isDigit = true) (hne : ds ≠ []) :
    parseLeading s = some (digitsToNat ds, ds.length) := by
  unfold parseLeading
  rw [hs]
  obtain ⟨ht, hdp⟩ := takeWhile_all_append ds '-' rest hd (by decide)
  rw [ht, hdp]
  cases ds with
  | nil => exact absurd rfl hne
  | cons a l => rfl

theorem parseLeading_mkItemFile (w n : Nat) (t k : String) :
    parseLeading (mkItemFile (padID w n) t k) =
      some (n, max w (natDigits n).length) := by
  have hdata : (mkItemFile (padID w n) t k).data =
      (padID w n).data ++ '-' :: (kebabCase t ++ "." ++ k ++ ".md").data := by
    simp [mkItemFile, String.data_append, List.append_assoc]
  rw [parseLeading_eq _ _ _ hdata (padID_all_digit w n) (padID_ne_nil w n),
    digitsToNat_padID, ← padID_data_length]

theorem foldl_max_aux {k : Nat} : ∀ (l : List Nat) (a : Nat), a ≤ k →
    (k ∈ l ∨ a = k) → (∀ x ∈ l, x ≤ k) → l.foldl max a = k := by
  intro l
  induction l with
  | nil =>
    intro a _ hm _
    rcases hm with hm | hm
    · exact absurd hm (List.not_mem_nil k)
    · exact hm
  | cons b rest ih =>
    intro a ha hm hub
    rw [List.foldl_cons]
    have hb : b ≤ k := hub b (List.mem_cons_self b rest)
    apply ih (max a b) (by omega)
    · rcases hm with hm | hm
      · rcases List.mem_cons.mp hm with hm | hm
        · right; omega
        · left; exact hm
      · right; omega
    · intro x hx
      exact hub x (List.mem_cons_of_mem b hx)

theorem foldl_max_eq {l : List Nat} {k : Nat} (hk : k ∈ l)
    (hub : ∀ x ∈ l, x ≤ k) : l.foldl max 0 = k :=
  foldl_max_aux l 0 (Nat.zero_le k) (Or.inl hk) hub

theorem padID_congr {w1 w2 n : Nat}
    (h : w1 - (natDigits n).length = w2 - (natDigits n).length) :
    padID w1 n = padID w2 n := by
  unfold padID
  rw [h]

theorem treeIDs_succ (j : Nat) : treeIDs (j + 1) =
    (j + 1, max 3 (natDigits (j + 1)).length) ::
      (List.range j).map (fun i => (j - i, max 3 (natDigits (j - i)).length)) := by
  unfold treeIDs
  rw [List.range_succ_eq_map, List.map_cons, List.map_map]
  simp [Nat.succ_sub_succ]

theorem GetNextID_nil (files : List String)
    (h : files.filterMap parseLeading = []) : GetNextID files = "001" := by
  unfold GetNextID
  rw [h]

theorem GetNextID_cons (p : Nat × Nat) (ps : List (Nat × Nat)) (files : List String)
    (h : files.filterMap parseLeading = p :: ps) :
    GetNextID files =
      padID (max 3 (((p :: ps).map Prod.snd).foldl max 0))
        ((((p :: ps).map Prod.fst).foldl max 0) + 1) := by
  unfold GetNextID
  rw [h]

theorem natDigits_one : natDigits 1 = ['1'] := by
  rw [natDigits]
  norm_num
  decide

theorem padID_three_one : padID 3 1 = "001" := by
  apply String.ext
  rw [padID_data, natDigits_one]
  decide

theorem GetNextID_eq (k : Nat) (files : List String)
    (h : files.filterMap parseLeading = treeIDs k) :
    GetNextID files = padID 3 (k + 1) := by
  cases k with
  | zero =>
    rw [GetNextID_nil files (by rw [h]; simp [treeIDs]), padID_three_one]
  | succ j =>
    rw [GetNextID_cons _ _ files (h.trans (treeIDs_succ j))]
    have hmaxId : (((j + 1, max 3 (natDigits (j + 1)).length) ::
        (List.range j).map (fun i => (j - i, max 3 (natDigits (j - i)).length))).map
          Prod.fst).foldl max 0 = j + 1 := by
      apply foldl_max_eq
      · simp
      · intro x hx
        simp only [List.map_cons, List.map_map, List.mem_cons, List.mem_map] at hx
        rcases hx with hx | ⟨i, _, hx⟩
        · omega
        · simp only [Function.comp] at hx
          omega
    have hmaxW : (((j + 1, max 3 (natDigits (j + 1)).length) ::
        (List.range j).map (fun i => (j - i, max 3 (natDigits (j - i)).length))).map
          Prod.snd).foldl max 0 = max 3 (natDigits (j + 1)).length := by
      apply foldl_max_eq
      · simp
      · intro x hx
        simp only [List.map_cons, List.map_map, List.mem_cons, List.mem_map] at hx
        rcases hx with hx | ⟨i, _, hx⟩
        · omega
        · simp only [Function.comp] at hx
          have := natDigits_length_mono (show j - i ≤ j + 1 by omega)
          omega
    rw [hmaxId, hmaxW]
    apply padID_congr
    have h1 := natDigits_length_mono (show j + 1 ≤ j + 2 by omega)
    have h2 : (natDigits (j + 1 + 1)).length = (natDigits (j + 2)).length := rfl
    omega

theorem treeIDs_step (k : Nat) (t kd : String) (files : List String)
    (h : files.filterMap parseLeading = treeIDs k) :
    (mkItemFile (padID 3 (k + 1)) t kd :: files).filterMap parseLeading =
      treeIDs (k + 1) := by
  rw [List.filterMap_cons, parseLeading_mkItemFile, h, treeIDs_succ]
  rfl

theorem createIDs_eq : ∀ (reqs : List (String × String)) (k : Nat)
    (files : List String), files.filterMap parseLeading = treeIDs k →
    createIDs reqs files =
      (List.range reqs.length).map (fun i => padID 3 (k + i + 1)) := by
  intro reqs
  induction reqs with
  | nil => intro k files _; rfl
  | cons p rest ih =>
    intro k files h
    obtain ⟨t, kd⟩ := p
    simp only [createIDs]
    rw [GetNextID_eq k files h,
      ih (k + 1) _ (treeIDs_step k t kd files h),
      List.length_cons, List.range_succ_eq_map, List.map_cons, List.map_map]
    refine congrArg₂ _ (by norm_num) (List.map_congr_left ?_)
    intro i _
    simp only [Function.comp]
    congr 1
    omega

/-- C1: with no items `GetNextID` returns "001"; across any sequence
of creations against an initially empty tree the assigned identifiers
are exactly the zero-padded (width 3) decimals 1..N in creation order,
pairwise distinct. -/
theorem C1_id_allocation :
    GetNextID [] = "001" ∧
    padID 3 1 = "001" ∧ padID 3 12 = "012" ∧ padID 3 123 = "123" ∧
    (∀ reqs : List (String × String),
      createIDs reqs [] =
        (List.range reqs.length).map (fun i => padID 3 (i + 1))) ∧
    (∀ reqs : List (String × String), (createIDs reqs []).Nodup) := by
  have hrun : ∀ reqs : List (String × String),
      createIDs reqs [] =
        (List.range reqs.length).map (fun i => padID 3 (i + 1)) := by
    intro reqs
    have h0 : ([] : List String).filterMap parseLeading = treeIDs 0 := by
      simp [treeIDs]
    have := createIDs_eq reqs 0 [] h0
    simpa using this
  have hpad12 : padID 3 12 = "012" := by
    apply String.ext
    rw [padID_data]
    rw [show natDigits 12 = ['1', '2'] from by
      rw [natDigits]
      norm_num
      rw [natDigits]
      norm_num
      decide]
    decide
  have hpad123 : padID 3 123 = "123" := by
    apply String.ext
    rw [padID_data]
    rw [show natDigits 123 = ['1', '2', '3'] from by
      rw [natDigits]
      norm_num
      rw [natDigits]
      norm_num
      rw [natDigits]
      norm_num
      decide]
    decide
  refine ⟨rfl, padID_three_one, hpad12, hpad123, hrun, ?_⟩
  intro reqs
  rw [hrun reqs]
  refine List.Nodup.map ?_ (List.nodup_range _)
  intro a b hab
  have := padID_inj hab
  omega

theorem describeIssues_has {i : Issue} : ∀ {l : List Issue}, i ∈ l →
      strHas (describeIssues l) i.describe
  | [j], hm => by
    rw [List.mem_singleton] at hm
    subst hm
    simp only [describeIssues]
    exact strHas_refl i.describe
  | j :: b :: rest, hm => by
    simp only [describeIssues]
    rcases List.mem_cons.mp hm with hv | hv
    · subst hv
      exact strHas_append_left _ (strHas_append_left _ (strHas_refl i.describe))
    · rw [String.append_assoc]
      exact strHas_append_right _ (strHas_append_right _ (describeIssues_has hv))

theorem lintReport_has {p t : String} :
    ∀ {entries : List (String × String)}, (p, t) ∈ entries →
      strHas (lintReport entries) (p ++ ": " ++ t)
  | (q, u) :: rest, hm => by
    rcases List.mem_cons.mp hm with he | hm2
    · obtain ⟨rfl, rfl⟩ := Prod.mk.injEq .. ▸ he
      simp only [lintReport]
      exact strHas_append_left _ (strHas_append_left _
        (strHas_refl (p ++ ": " ++ t)))
    · simp only [lintReport]
      exact strHas_append_right _ (lintReport_has hm2)

/-- C2: linting returns no error exactly when no item has issues (in
particular on an empty tree); an aggregate error message carries the
literal marker "validation failed" and enumerates every offending path
with its issues: for each offending item the message contains the line
`path ++ ": " ++ <its issue list>`, hence the path itself, and the
description of each of its issues. -/
theorem C2_lint_aggregate (cfg : Config)
    (tree : List (String × List (String × String))) :
    (lintAll cfg tree = none ↔ ∀ it ∈ tree, validate cfg it.2 = []) ∧
    (∀ msg, lintAll cfg tree = some msg →
      strHas msg "validation failed" ∧
      ∀ it ∈ tree, validate cfg it.2 ≠ [] →
        strHas msg (it.1 ++ ": " ++ describeIssues (validate cfg it.2)) ∧
        strHas msg it.1 ∧
        ∀ i ∈ validate cfg it.2, strHas msg i.describe) := by
  constructor
  · simp only [lintAll]
    split
    · rename_i hempty
      simp only [true_iff]
      rw [List.isEmpty_iff, List.filter_eq_nil_iff] at hempty
      intro it hit
      simpa using hempty it hit
    · rename_i hempty
      constructor
      · intro hc
        exact absurd hc (by simp)
      · intro hall
        exfalso
        apply hempty
        rw [List.isEmpty_iff, List.filter_eq_nil_iff]
        intro it hit
        simp [hall it hit]
  · intro msg h
    simp only [lintAll] at h
    split at h
    · exact absurd h (by simp)
    · rename_i hempty
      obtain rfl := (Option.some.inj h).symm
      constructor
      · exact strHas_append_left _ ⟨"", ":\n", by decide⟩
      · intro it hit hvne
        have hline : strHas
            (lintReport ((List.filter
                (fun it => decide ¬(validate cfg it.2).isEmpty = true) tree).map
              (fun it => (it.1, describeIssues (validate cfg it.2)))))
            (it.1 ++ ": " ++ describeIssues (validate cfg it.2)) :=
          lintReport_has
            (List.mem_map_of_mem _ (List.mem_filter.mpr ⟨hit, by simp [hvne]⟩))
        have hmsg := strHas_append_right "validation failed:\n" hline
        refine ⟨hmsg, ?_, ?_⟩
        · exact strHas_trans hmsg (strHas_append_left _
            (strHas_append_left _ (strHas_refl it.1)))
        · intro i hi
          exact strHas_trans hmsg
            (strHas_append_right _ (describeIssues_has hi))

theorem toNat_ofNat_lt {n : Nat} (h : n < 55296) : (Char.ofNat n).toNat = n := by
  have hv : n.isValidChar := Or.inl h
  rw [Char.ofNat, dif_pos hv]
  rfl

theorem toLower_idem (c : Char) : c.toLower.toLower = c.toLower := by
  unfold Char.toLower
  by_cases h : c.toNat ≥ 65 ∧ c.toNat ≤ 90
  · rw [if_pos h]
    have h32 : (Char.ofNat (c.toNat + 32)).toNat = c.toNat + 32 :=
      toNat_ofNat_lt (by omega)
    rw [if_neg (by rw [h32]; omega)]
  · rw [if_neg h, if_neg h]

theorem kebabCharWith_fix (low : Char → Char)
    (hidem : ∀ c, low (low c) = low c) (hhy : low '-' = '-') (c : Char) :
    kebabCharWith low (kebabCharWith low c) = kebabCharWith low c := by
  by_cases h : low c = ' ' ∨ low c = '_'
  · rw [show kebabCharWith low c = '-' from by unfold kebabCharWith; rw [if_pos h]]
    unfold kebabCharWith
    rw [hhy]
    rw [if_neg (by decide)]
  · have hc : kebabCharWith low c = low c := by unfold kebabCharWith; rw [if_neg h]
    rw [hc]
    unfold kebabCharWith
    rw [hidem c]
    rw [if_neg h]

theorem map_kebabCharWith_idem (low : Char → Char)
    (hidem : ∀ c, low (low c) = low c) (hhy : low '-' = '-') (l : List Char) :
    (l.map (kebabCharWith low)).map (kebabCharWith low) =
      l.map (kebabCharWith low) := by
  induction l with
  | nil => rfl
  | cons a rest ih => simp [ih, kebabCharWith_fix low hidem hhy]

/-- C10: for every lower-casing character map `low` that is idempotent
and fixes the hyphen — as the Unicode simple case mapping behind the
library's `strings.ToLower` is and does — the induced `kebabCase`
lower-cases each character and maps space and underscore to a hyphen,
leaving every other character unchanged, and is idempotent; the
executable instance `kebabCase` is `kebabCaseWith Char.toLower`, whose
basic-latin lowering is itself idempotent; and `kebabCase` output can
contain characters outside `[a-z0-9-]`. -/
theorem C10_kebab :
    (∀ low : Char → Char, (∀ c, low (low c) = low c) → low '-' = '-' →
      (∀ s : String, kebabCaseWith low s =
        ⟨s.data.map (fun c =>
          if low c = ' ' ∨ low c = '_' then '-' else low c)⟩) ∧
      (∀ s : String,
        kebabCaseWith low (kebabCaseWith low s) = kebabCaseWith low s)) ∧
    ((∀ c : Char, c.toLower.toLower = c.toLower) ∧
      kebabCase = kebabCaseWith Char.toLower) ∧
    (∃ s : String, ∃ c ∈ (kebabCase s).data,
      ¬(c.isLower = true ∨ c.isDigit = true ∨ c = '-')) := by
  refine ⟨?_, ⟨toLower_idem, rfl⟩, ?_⟩
  · intro low hidem hhy
    refine ⟨fun s => rfl, ?_⟩
    intro s
    apply String.ext
    show ((s.data.map (kebabCharWith low)).map (kebabCharWith low)) =
      s.data.map (kebabCharWith low)
    exact map_kebabCharWith_idem low hidem hhy s.data
  · exact ⟨"a.b", by decide⟩

theorem C10_kebab_witness :
    kebabCaseWith Char.toLower "A b_C.D-e" = "a-b-c.d-e" ∧
    kebabCaseWith Char.toLower (kebabCaseWith Char.toLower "A b_C.D-e") =
      kebabCaseWith Char.toLower "A b_C.D-e" := by
  have h := C10_kebab.1 Char.toLower C10_kebab.2.1.1 (by decide)
  exact ⟨by decide, h.2 "A b_C.D-e"⟩

theorem C3_order_independent_cex :
    ((validStatuses cfgA).contains "todo" = true ∧
     (validStatuses cfgA).contains "" = false ∧
     createWorkItem cfgA ["prd", "todo", ""] false [] false wEx =
       (.error .titleRequired, []) ∧
     createWorkItem cfgA ["prd", "", "todo"] false [] false wEx =
       (.error .titleRequired, [])) ∧
    ((validStatuses cfgB).contains "" = true ∧
     (validStatuses cfgB).contains "Fix bug" = false ∧
     cfgB.statusFolders.lookup "" = some "0_unnamed" ∧
     (createWorkItem cfgB ["prd", "", "Fix bug"] false [] false wEx).1 =
       .ok (.created ⟨"001", "Fix bug", "todo", "prd", "001-fix-bug.prd.md",
         "1_todo", ".work/1_todo/001-fix-bug.prd.md",
         [("id", "001"), ("title", "Fix bug"), ("status", "todo"),
          ("created", "2024-01-01")]⟩)) :=
  ⟨⟨rfl, rfl, rfl, rfl⟩, rfl, rfl, rfl, rfl⟩

theorem C2_lint_aggregate_witness :
    lintAll cfgA [] = none ∧
    ∃ msg, lintAll cfgA [("p1", [("status", "bad")])] = some msg ∧
      strHas msg "validation failed" ∧
      strHas msg ("p1" ++ ": " ++
        describeIssues (validate cfgA [("status", "bad")])) ∧
      strHas msg "p1" ∧
      strHas msg (Issue.invalidStatusField "bad").describe := by
  refine ⟨(C2_lint_aggregate cfgA []).1.mpr (by simp), ?_⟩
  have h := (C2_lint_aggregate cfgA [("p1", [("status", "bad")])]).2
  have hit := (h _ rfl).2 ("p1", [("status", "bad")]) (by simp) (by decide)
  exact ⟨_, rfl, (h _ rfl).1, hit.1, hit.2.1, hit.2.2 _ (by decide)⟩

theorem C3_order_independent_witness :
    resolveArgs cfgA ["prd", "in-progress", "Fix bug"] =
      .ok ⟨"prd", "in-progress", "Fix bug", ""⟩ ∧
    resolveArgs cfgA ["prd", "Fix bug", "in-progress"] =
      .ok ⟨"prd", "in-progress", "Fix bug", ""⟩ ∧
    createWorkItem cfgA ["prd", "in-progress", "Fix bug"] false [] false wEx =
      createWorkItem cfgA ["prd", "Fix bug", "in-progress"] false [] false wEx ∧
    ∀ r effs,
      createWorkItem cfgA ["prd", "in-progress", "Fix bug"] false [] false wEx =
        (.ok (.created r), effs) →
      r.status = "in-progress" ∧ r.title = "Fix bug" ∧
        cfgA.statusFolders.lookup "in-progress" = some r.folder :=
  C3_order_independent cfgA "prd" "in-progress" "Fix bug" false [] false wEx
    (by decide) (by decide) (by decide) (by decide)

theorem C4_ambiguous_args_witness :
    createWorkItem cfgA ["prd", "Fix", "bug"] false [] false wEx =
      (.error (.ambiguousStatus "Fix" "bug" (validStatuses cfgA)), []) ∧
    strHas ((CreateError.ambiguousStatus "Fix" "bug"
      (validStatuses cfgA)).message) "Fix" ∧
    strHas ((CreateError.ambiguousStatus "Fix" "bug"
      (validStatuses cfgA)).message) "bug" ∧
    ∀ v ∈ validStatuses cfgA,
      strHas ((CreateError.ambiguousStatus "Fix" "bug"
        (validStatuses cfgA)).message) v :=
  C4_ambiguous_args cfgA ["prd", "Fix", "bug"] false [] false wEx
    (by decide) (by decide) (by decide) (by decide)

theorem C5_input_precedence_witness :
    mapGet [("id", "042"), ("description", "From CLI"), ("id", "001"),
      ("title", "T"), ("status", "todo"), ("created", "2024-01-01")] "id" =
        some "042" ∧
    mapGet [("id", "042"), ("description", "From CLI"), ("id", "001"),
      ("title", "T"), ("status", "todo"), ("created", "2024-01-01")]
        "description" = some "From CLI" ∧
    mapGet [("id", "042"), ("description", "From CLI"), ("id", "001"),
      ("title", "T"), ("status", "todo"), ("created", "2024-01-01")] "title" =
        some "T" :=
  ⟨C5_input_precedence cfgA ["prd", "todo", "T", "From CLI"] false
      [("id", "042")] false wEx ⟨"prd", "todo", "T", "From CLI"⟩
      ⟨"001", "T", "todo", "prd", "001-t.prd.md", "1_todo",
        ".work/1_todo/001-t.prd.md",
        [("id", "042"), ("description", "From CLI"), ("id", "001"),
         ("title", "T"), ("status", "todo"), ("created", "2024-01-01")]⟩
      [Effect.mkdir ".work/1_todo",
       Effect.write ".work/1_todo/001-t.prd.md"
         [("id", "042"), ("description", "From CLI"), ("id", "001"),
          ("title", "T"), ("status", "todo"), ("created", "2024-01-01")]]
      rfl rfl "id" "042" (by decide),
   C5_input_precedence cfgA ["prd", "todo", "T", "From CLI"] false
      [("id", "042")] false wEx ⟨"prd", "todo", "T", "From CLI"⟩
      ⟨"001", "T", "todo", "prd", "001-t.prd.md", "1_todo",
        ".work/1_todo/001-t.prd.md",
        [("id", "042"), ("description", "From CLI"), ("id", "001"),
         ("title", "T"), ("status", "todo"), ("created", "2024-01-01")]⟩
      [Effect.mkdir ".work/1_todo",
       Effect.write ".work/1_todo/001-t.prd.md"
         [("id", "042"), ("description", "From CLI"), ("id", "001"),
          ("title", "T"), ("status", "todo"), ("created", "2024-01-01")]]
      rfl rfl "description" "From CLI" (by decide),
   C5_input_precedence cfgA ["prd", "todo", "T", "From CLI"] false
      [("id", "042")] false wEx ⟨"prd", "todo", "T", "From CLI"⟩
      ⟨"001", "T", "todo", "prd", "001-t.prd.md", "1_todo",
        ".work/1_todo/001-t.prd.md",
        [("id", "042"), ("description", "From CLI"), ("id", "001"),
         ("title", "T"), ("status", "todo"), ("created", "2024-01-01")]⟩
      [Effect.mkdir ".work/1_todo",
       Effect.write ".work/1_todo/001-t.prd.md"
         [("id", "042"), ("description", "From CLI"), ("id", "001"),
          ("title", "T"), ("status", "todo"), ("created", "2024-01-01")]]
      rfl rfl "title" "T" (by decide)⟩

theorem C6_default_status_witness :
    (⟨"001", "T", "todo", "prd", "001-t.prd.md", "1_todo",
      ".work/1_todo/001-t.prd.md",
      [("id", "001"), ("title", "T"), ("status", "todo"),
       ("created", "2024-01-01")]⟩ : CreatedItem).status = cfgA.defaultStatus :=
  C6_default_status cfgA ["prd", "T"] false [] false wEx ⟨"prd", "", "T", ""⟩
    ⟨"001", "T", "todo", "prd", "001-t.prd.md", "1_todo",
      ".work/1_todo/001-t.prd.md",
      [("id", "001"), ("title", "T"), ("status", "todo"),
       ("created", "2024-01-01")]⟩
    [Effect.mkdir ".work/1_todo",
     Effect.write ".work/1_todo/001-t.prd.md"
       [("id", "001"), ("title", "T"), ("status", "todo"),
        ("created", "2024-01-01")]]
    rfl rfl rfl

theorem C7_invalid_status_witness :
    createWorkItem cfgC ["prd", "T"] false [] false wEx =
      (.error (.invalidStatus "missing" (validStatuses cfgC)), []) :=
  C7_invalid_status cfgC ["prd", "T"] false [] wEx ⟨"prd", "", "T", ""⟩
    rfl (by decide) (by decide) rfl

theorem C8_filename_witness :
    (⟨"001", "T", "todo", "prd", "001-t.prd.md", "1_todo",
      ".work/1_todo/001-t.prd.md",
      [("id", "001"), ("title", "T"), ("status", "todo"),
       ("created", "2024-01-01")]⟩ : CreatedItem).filename =
        "001" ++ "-" ++ kebabCase "T" ++ "." ++ "prd" ++ ".md" ∧
    cfgA.statusFolders.lookup "todo" = some "1_todo" ∧
    (".work/1_todo/001-t.prd.md" : String) =
      joinPath (joinPath ".work" "1_todo") "001-t.prd.md" ∧
    ("001" : String) = GetNextID wEx.files :=
  C8_filename cfgA ["prd", "T"] false [] false wEx
    ⟨"001", "T", "todo", "prd", "001-t.prd.md", "1_todo",
      ".work/1_todo/001-t.prd.md",
      [("id", "001"), ("title", "T"), ("status", "todo"),
       ("created", "2024-01-01")]⟩
    [Effect.mkdir ".work/1_todo",
     Effect.write ".work/1_todo/001-t.prd.md"
       [("id", "001"), ("title", "T"), ("status", "todo"),
        ("created", "2024-01-01")]]
    rfl

theorem C9_no_file_on_error_witness :
    (∀ p ins, Effect.write p ins ∉ [Effect.mkdir ".work/1_todo"]) ∧
    ([Effect.mkdir ".work/1_todo"] = [] ∨
      (CreateError.writeFailed = CreateError.writeFailed ∧
        ∃ f, [Effect.mkdir ".work/1_todo"] = [Effect.mkdir f])) :=
  C9_no_file_on_error cfgA ["prd", "todo", "T"] false [] false wBad
    CreateError.writeFailed [Effect.mkdir ".work/1_todo"] rfl

end Kira
